import Mathlib

/-!
Verification of the streaming transcription orchestration in
`examples/python/whisper_streaming_standalone.py` and
`examples/python/whisper_streaming.py`.

The second (effective) definition of `stream_and_transcribe` in the
standalone script is embedded as a fuel-indexed loop over an environment
that supplies the results of the external `ffmpeg` extraction and
`whisper-cli` invocation subprocesses.  The `read_stream` helper of
`whisper_streaming.py` is embedded as a per-line function, with
`json.loads` validity modelled by an executable JSON grammar checker.
-/

namespace WhisperStreaming

/-- Characters stripped by the Python `str.strip()` method (the ASCII whitespace
set; all inputs relevant here are ASCII). -/
def isPySpace (c : Char) : Bool :=
  c = ' ' || c = '\t' || c = '\n' || c = '\r' || c = '\x0b' || c = '\x0c'

/-- Python `s.strip()` on a list of characters. -/
def pyStrip (cs : List Char) : List Char :=
  ((cs.dropWhile isPySpace).reverse.dropWhile isPySpace).reverse

/-- Python `s.strip()` on a `String`. -/
def pyStripStr (s : String) : String := ⟨pyStrip s.toList⟩

/-- Python `s.split("\n")[-1]`: the text after the last newline
(the whole string when it has no newline, `""` for `""`). -/
def lastField (cs : List Char) : List Char :=
  cs.foldl (fun acc c => if c = '\n' then [] else acc ++ [c]) []

/-- Python `s.split("\n")[-1]` on a `String`. -/
def lastFieldStr (s : String) : String := ⟨lastField s.toList⟩

/-! JSON validity, modelling the Python `json.loads` function (strict mode, with the
default acceptance of `NaN`, `Infinity` and `-Infinity`).  The checker is
a fuel-indexed recursive-descent recogniser over the RFC 8259 grammar;
it returns the unconsumed remainder on success. -/

/-- JSON insignificant whitespace characters. -/
def isJsonWs (c : Char) : Bool :=
  c = ' ' || c = '\t' || c = '\n' || c = '\r'

/-- Skip insignificant JSON whitespace. -/
def skipWs (cs : List Char) : List Char := cs.dropWhile isJsonWs

/-- Hexadecimal digit test for `\uXXXX` escapes. -/
def isHexChar (c : Char) : Bool :=
  c.isDigit || ('a' ≤ c && c ≤ 'f') || ('A' ≤ c && c ≤ 'F')

/-- Recognise the rest of a JSON string after the opening quote.
Strict mode: raw control characters below U+0020 are rejected. -/
def pStr : List Char → Option (List Char)
  | [] => none
  | '"' :: rest => some rest
  | '\\' :: 'u' :: a :: b :: c :: d :: rest =>
      if isHexChar a && isHexChar b && isHexChar c && isHexChar d then pStr rest else none
  | '\\' :: e :: rest =>
      if e = '"' || e = '\\' || e = '/' || e = 'b' || e = 'f' || e = 'n' || e = 'r' || e = 't'
      then pStr rest else none
  | c :: rest => if c.val < 32 then none else pStr rest

/-- Drop a run of decimal digits. -/
def dropDigits (cs : List Char) : List Char := cs.dropWhile Char.isDigit

/-- Integer part of a JSON number (after an optional minus sign):
`0`, or a nonzero digit followed by digits. -/
def pIntPart : List Char → Option (List Char)
  | '0' :: rest => some rest
  | c :: rest => if c.isDigit then some (dropDigits rest) else none
  | [] => none

/-- Optional fraction part: `.` followed by one or more digits. -/
def pFrac : List Char → Option (List Char)
  | '.' :: c :: rest => if c.isDigit then some (dropDigits rest) else none
  | '.' :: [] => none
  | cs => some cs

/-- Optional exponent part: `e`/`E`, optional sign, one or more digits. -/
def pExp (cs : List Char) : Option (List Char) :=
  match cs with
  | e :: rest =>
      if e = 'e' || e = 'E' then
        let rest2 := match rest with
          | s :: r => if s = '+' || s = '-' then r else rest
          | [] => rest
        match rest2 with
        | c :: r => if c.isDigit then some (dropDigits r) else none
        | [] => none
      else some cs
  | [] => some cs

/-- Recognise a JSON number (with optional leading minus). -/
def pNum (cs : List Char) : Option (List Char) :=
  let cs1 := match cs with
    | '-' :: r => r
    | _ => cs
  match pIntPart cs1 with
  | none => none
  | some r1 =>
    match pFrac r1 with
    | none => none
    | some r2 => pExp r2

mutual

/-- Recognise one JSON value; fuel bounds the recursion depth. -/
def pVal : Nat → List Char → Option (List Char)
  | 0, _ => none
  | f + 1, cs =>
    match skipWs cs with
    | 'n' :: 'u' :: 'l' :: 'l' :: rest => some rest
    | 't' :: 'r' :: 'u' :: 'e' :: rest => some rest
    | 'f' :: 'a' :: 'l' :: 's' :: 'e' :: rest => some rest
    | 'N' :: 'a' :: 'N' :: rest => some rest
    | 'I' :: 'n' :: 'f' :: 'i' :: 'n' :: 'i' :: 't' :: 'y' :: rest => some rest
    | '-' :: 'I' :: 'n' :: 'f' :: 'i' :: 'n' :: 'i' :: 't' :: 'y' :: rest => some rest
    | '"' :: rest => pStr rest
    | '[' :: rest =>
      (match skipWs rest with
       | ']' :: rest2 => some rest2
       | rest2 => pElems f rest2)
    | '\x7b' :: rest =>
      (match skipWs rest with
       | '\x7d' :: rest2 => some rest2
       | rest2 => pMembers f rest2)
    | rest => pNum rest

/-- Recognise `value (, value)* ]` inside a nonempty array. -/
def pElems : Nat → List Char → Option (List Char)
  | 0, _ => none
  | f + 1, cs =>
    match pVal f cs with
    | none => none
    | some r =>
      match skipWs r with
      | ',' :: r2 => pElems f r2
      | ']' :: r2 => some r2
      | _ => none

/-- Recognise `string : value (, string : value)* }` inside a nonempty object. -/
def pMembers : Nat → List Char → Option (List Char)
  | 0, _ => none
  | f + 1, cs =>
    match skipWs cs with
    | '"' :: r =>
      (match pStr r with
       | none => none
       | some r2 =>
         match skipWs r2 with
         | ':' :: r3 =>
           (match pVal f r3 with
            | none => none
            | some r4 =>
              match skipWs r4 with
              | ',' :: r5 => pMembers f r5
              | '\x7d' :: r5 => some r5
              | _ => none)
         | _ => none)
    | _ => none

end

/-- Whether `json.loads` accepts the character list: one JSON value with
only whitespace around it. -/
def jsonValid (cs : List Char) : Bool :=
  match pVal (2 * cs.length + 2) cs with
  | some r => skipWs r = []
  | none => false

/-- Whether `json.loads` accepts the string. -/
def jsonValidStr (s : String) : Bool := jsonValid s.toList

/-! The `read_stream` helper of `whisper_streaming.py`: each line of a
child stream is decoded and stripped; empty results are silently skipped
("ignore extra newlines between chunks of segments"); otherwise the line
is fed to `json.loads` and either pretty-printed or reported as
`Error: Invalid JSON on line: <stripped line>` — processing always
continues with the next line. -/

/-- What `read_stream` prints for one line (`none`: nothing printed).
`jsonOut raw` is printed as the tag followed by the pretty-printed value
parsed from `raw`; `invalidJson raw` as the tag followed by
`Error: Invalid JSON on line: ` and `raw`. -/
inductive Emission where
  | jsonOut (raw : String)
  | invalidJson (raw : String)
deriving DecidableEq

/-- Per-line behaviour of `read_stream`. -/
def readLine (line : String) : Option Emission :=
  let d := pyStripStr line
  if d = "" then none
  else if jsonValidStr d then some (.jsonOut d)
  else some (.invalidJson d)

/-- `read_stream` over a whole (finite) stream of lines. -/
def readStream (lines : List String) : List Emission :=
  lines.filterMap readLine

/-- Rendering of an invalid-JSON report, exactly as `read_stream` prints
it (`tag` is the `log_prefix` argument: `""` for stdout, `"[stderr] "`
for stderr). -/
def renderInvalid (tag raw : String) : String :=
  tag ++ "Error: Invalid JSON on line: " ++ raw

/-! The effective `stream_and_transcribe` of
`whisper_streaming_standalone.py` (the second definition, which shadows
the simulated first one).  Per tick `i` it runs an `ffmpeg` extraction of
the window `[i*step_s, i*step_s + step_s)` from the live capture file to
the processed-segment file, breaks on nonzero extraction status, runs
`whisper-cli` via `check_output` (breaking on `CalledProcessError`,
i.e. nonzero exit), prints the transcription, increments `i`, sleeps,
and breaks when `max_duration > 0 and i * step_s >= max_duration`.
The `finally` block terminates the `ffmpeg` capture process once and
removes both temporary files if they exist.  The results of the two
external subprocesses are supplied by an `Env`; every `print` call of the
function goes to `sys.stdout` and is recorded in an output trace. -/

/-- Outcome of one external subprocess call: exit status plus captured
stdout and stderr. -/
structure ProcResult where
  returncode : Nat
  stdout : String
  stderr : String

/-- The environment: what the segment-extraction `ffmpeg` run and the
`whisper-cli` run would return at each tick index. -/
structure Env where
  extract : Nat → ProcResult
  whisper : Nat → ProcResult

/-- Existence of the two scratch files `/tmp/whisper-live0.wav` (live
capture sink) and `/tmp/whisper-live.wav` (processed segment). -/
structure ScratchState where
  liveExists : Bool
  processedExists : Bool
deriving DecidableEq

/-- One line printed by `stream_and_transcribe`.  The `Nat` argument of
`transcript`, `extractError` and `whisperError` is the value of the loop
variable `i` at the print site (metadata for specification; the printed
text is given by `render`). -/
inductive Out where
  | banner (text : String)
  | transcript (i : Nat) (text : String)
  | extractError (i : Nat) (err : String)
  | whisperError (i : Nat) (err : String)
  | maxDurationNote
deriving DecidableEq

/-- Output channels of the process. -/
inductive Channel where
  | stdout
  | stderr
deriving DecidableEq

/-- Channel a given output line is written to: every `print` call in
`stream_and_transcribe` uses the default `file=sys.stdout`. -/
def outChannel (_ : Out) : Channel := Channel.stdout

/-- The exact text printed for each output. -/
def render : Out → String
  | .banner s => s
  | .transcript _ text => text
  | .extractError _ e => "Error extracting segment: " ++ e
  | .whisperError _ e => "Error during transcription: " ++ e
  | .maxDurationNote => "[+] Max duration reached, stopping stream."

/-- How the `while True` loop was left.  `stillRunning i` means the fuel
ran out with the loop about to run tick `i` (models the loop not having
stopped on its own, as with `max_duration = 0`). -/
inductive ExitKind where
  | maxDurationReached
  | extractFailed (i : Nat)
  | whisperFailed (i : Nat)
  | stillRunning (i : Nat)
deriving DecidableEq

/-- Trace of one run of the `while True` loop.  `attempts` records the
tick indices whose extraction was invoked, `windows` the `(-ss, -t)`
arguments passed to the extraction command, `topStates` the scratch-file
state at the top of each entered tick, `nextIndex` the value of `i` when
the loop was left. -/
structure LoopResult where
  exit : ExitKind
  nextIndex : Nat
  attempts : List Nat
  windows : List (Nat × Nat)
  outs : List Out
  topStates : List ScratchState
  finalState : ScratchState

/-- The text printed for a successful `whisper-cli` run: in OpenAI mode
(`print_openai` truthy) `whisper_output.decode().strip()`, otherwise
`whisper_output.decode().strip().split("\n")[-1]`. -/
def transcriptText (poai : Bool) (stdout : String) : String :=
  if poai then pyStripStr stdout else lastFieldStr (pyStripStr stdout)

/-- The `while True` loop body of `stream_and_transcribe`, indexed by
fuel (the real loop is unbounded; fuel exhaustion is recorded as
`stillRunning`, never as a stop decided by the loop). -/
def runLoop (env : Env) (stepS maxDuration : Nat) (poai : Bool) :
    Nat → Nat → ScratchState → LoopResult
  | 0, i, st =>
    { exit := .stillRunning i, nextIndex := i, attempts := [], windows := [],
      outs := [], topStates := [], finalState := st }
  | fuel + 1, i, st =>
    let er := env.extract i
    if er.returncode ≠ 0 then
      { exit := .extractFailed i, nextIndex := i, attempts := [i],
        windows := [(i * stepS, stepS)],
        outs := [.extractError i er.stderr], topStates := [st], finalState := st }
    else
      let st1 : ScratchState := { st with processedExists := true }
      let wr := env.whisper i
      if wr.returncode ≠ 0 then
        { exit := .whisperFailed i, nextIndex := i, attempts := [i],
          windows := [(i * stepS, stepS)],
          outs := [.whisperError i wr.stderr], topStates := [st], finalState := st1 }
      else
        let out := Out.transcript i (transcriptText poai wr.stdout)
        if 0 < maxDuration ∧ maxDuration ≤ (i + 1) * stepS then
          { exit := .maxDurationReached, nextIndex := i + 1, attempts := [i],
            windows := [(i * stepS, stepS)],
            outs := [out, .maxDurationNote], topStates := [st], finalState := st1 }
        else
          let r := runLoop env stepS maxDuration poai fuel (i + 1) st1
          { exit := r.exit, nextIndex := r.nextIndex, attempts := i :: r.attempts,
            windows := (i * stepS, stepS) :: r.windows,
            outs := out :: r.outs, topStates := st :: r.topStates,
            finalState := r.finalState }

/-- Whether the loop is still running (fuel ran out before any exit). -/
def stillGoing : ExitKind → Bool
  | .stillRunning _ => true
  | _ => false

/-- Trace of one whole call of `stream_and_transcribe`: the loop trace
plus the startup banners and, when the loop exited, the `finally`
cleanup (one `terminate()` of the capture process and removal of both
scratch files). -/
structure SessionResult where
  exit : ExitKind
  nextIndex : Nat
  attempts : List Nat
  windows : List (Nat × Nat)
  outs : List Out
  topStates : List ScratchState
  terminations : Nat
  finalState : ScratchState

/-- The three startup prints of `stream_and_transcribe`. -/
def startBanners (streamUrl : String) (stepS : Nat) (model language : String)
    (maxDuration : Nat) : List Out :=
  [ .banner ("Streaming from URL: " ++ streamUrl),
    .banner ("Step: " ++ toString stepS ++ "s, Model: " ++ model ++ ", Language: "
      ++ language ++ ", Max Duration: " ++ toString maxDuration ++ "s"),
    .banner "[+] Buffering audio. Please wait..." ]

/-- One call of `stream_and_transcribe`.  The capture process is spawned
(so the live sink starts existing), the loop runs from `i = 0`, and when
the loop exits the `finally` block terminates the capture process exactly
once and removes each scratch file if it exists. -/
def session (env : Env) (streamUrl : String) (stepS : Nat) (model language : String)
    (maxDuration : Nat) (poai : Bool) (fuel : Nat) : SessionResult :=
  let st0 : ScratchState := { liveExists := true, processedExists := false }
  let r := runLoop env stepS maxDuration poai fuel 0 st0
  { exit := r.exit, nextIndex := r.nextIndex, attempts := r.attempts,
    windows := r.windows,
    outs := startBanners streamUrl stepS model language maxDuration ++ r.outs,
    topStates := r.topStates,
    terminations := if stillGoing r.exit then 0 else 1,
    finalState := if stillGoing r.exit then r.finalState
      else { liveExists := false, processedExists := false } }

/-- Sequence indices of the transcription records in an output trace, in
emission order. -/
def transcriptIndices (outs : List Out) : List Nat :=
  outs.filterMap fun o => match o with
    | .transcript i _ => some i
    | _ => none

/-- Every external call the environment would answer succeeds. -/
def allSuccess (env : Env) : Prop :=
  ∀ j, (env.extract j).returncode = 0 ∧ (env.whisper j).returncode = 0

/-- Number of ticks the loop performs under bound `d` and step `s`:
`⌈d / s⌉` computed on naturals. -/
def ceilTicks (s d : Nat) : Nat := (d + s - 1) / s

/-- Environment in which every extraction and invocation succeeds and
`whisper-cli` prints `hello world`. -/
def constEnv : Env :=
  ⟨fun _ => ⟨0, "", ""⟩, fun _ => ⟨0, "hello world", ""⟩⟩

/-- Environment whose extraction always fails with stderr `boom`. -/
def failExtractEnv : Env :=
  ⟨fun _ => ⟨1, "", "boom"⟩, fun _ => ⟨0, "", ""⟩⟩

/-- Environment whose `whisper-cli` always fails with stderr `wboom`. -/
def failWhisperEnv : Env :=
  ⟨fun _ => ⟨0, "", ""⟩, fun _ => ⟨1, "", "wboom"⟩⟩

/-- Environment whose extraction fails at tick 2 only. -/
def failAt2Env : Env :=
  ⟨fun i => if i = 2 then ⟨1, "", "late boom"⟩ else ⟨0, "", ""⟩,
   fun _ => ⟨0, "ok", ""⟩⟩

/-- Environment where every call succeeds but `whisper-cli` prints
nothing on stdout. -/
def emptyOutEnv : Env :=
  ⟨fun _ => ⟨0, "", ""⟩, fun _ => ⟨0, "", ""⟩⟩

/-- Tick `j` fits strictly inside the duration bound iff `j` is below the
ceiling `⌈d / s⌉`. -/
theorem ticks_lt_iff {s d : Nat} (hs : 0 < s) (hd : 0 < d) (j : Nat) :
    j * s < d ↔ j < ceilTicks s d := by
  unfold ceilTicks
  have h := Nat.le_div_iff_mul_le (x := j + 1) (y := d + s - 1) hs
  have hj : (j + 1) * s = j * s + s := by ring
  rw [hj] at h
  generalize (d + s - 1) / s = q at h ⊢
  generalize j * s = m at h ⊢
  omega

/-- Characterization of a failure-free run of the loop from tick `i` with
a positive duration bound: it performs ticks `i, …, ⌈d/s⌉ - 1`, passing
window `(j*s, s)` to the extractor at tick `j`, emits one transcript per
tick followed by the max-duration notice, keeps the processed-segment
file in existence from the end of the first tick on, and exits through
the duration check. -/
theorem runLoop_success (env : Env) (s d : Nat) (p : Bool) (hs : 0 < s) (hd : 0 < d)
    (henv : allSuccess env) :
    ∀ fuel i st, i < ceilTicks s d → ceilTicks s d ≤ i + fuel →
      runLoop env s d p fuel i st =
        { exit := .maxDurationReached,
          nextIndex := ceilTicks s d,
          attempts := List.range' i (ceilTicks s d - i),
          windows := (List.range' i (ceilTicks s d - i)).map (fun j => (j * s, s)),
          outs := (List.range' i (ceilTicks s d - i)).map
                    (fun j => Out.transcript j (transcriptText p (env.whisper j).stdout))
                  ++ [Out.maxDurationNote],
          topStates := st :: List.replicate (ceilTicks s d - i - 1)
                    { st with processedExists := true },
          finalState := { st with processedExists := true } } := by
  intro fuel
  induction fuel with
  | zero => intro i st h1 h2; omega
  | succ f ih =>
    intro i st h1 h2
    have he := (henv i).1
    have hw := (henv i).2
    simp only [runLoop]
    rw [if_neg (by simp [he])]
    rw [if_neg (by simp [hw])]
    by_cases hbreak : ceilTicks s d ≤ i + 1
    · have hnlt : ¬ ((i + 1) * s < d) := fun hc =>
        absurd ((ticks_lt_iff hs hd (i + 1)).1 hc) (by omega)
      rw [if_pos ⟨hd, by omega⟩]
      have hn1 : ceilTicks s d = i + 1 := by omega
      simp [hn1, List.range']
    · have hlt : (i + 1) * s < d := (ticks_lt_iff hs hd (i + 1)).2 (by omega)
      rw [if_neg (by omega)]
      rw [ih (i + 1) { st with processedExists := true } (by omega) (by omega)]
      have hni : ceilTicks s d - i = (ceilTicks s d - (i + 1)) + 1 := by omega
      have hrep : ceilTicks s d - (i + 1) = (ceilTicks s d - (i + 1) - 1) + 1 := by omega
      rw [hni]
      simp only [List.range'_succ, List.map_cons, List.cons_append, Nat.add_sub_cancel]
      rw [hrep, List.replicate_succ]
      simp

/-- With `max_duration = 0` the duration check never fires: a
failure-free loop runs one tick per unit of fuel and is still running
when the fuel ends. -/
theorem runLoop_unbounded (env : Env) (s : Nat) (p : Bool) (henv : allSuccess env) :
    ∀ fuel i st,
      (runLoop env s 0 p fuel i st).exit = .stillRunning (i + fuel) ∧
      (runLoop env s 0 p fuel i st).attempts = List.range' i fuel := by
  intro fuel
  induction fuel with
  | zero => intro i st; simp [runLoop]
  | succ f ih =>
    intro i st
    have he := (henv i).1
    have hw := (henv i).2
    simp only [runLoop]
    rw [if_neg (by simp [he])]
    rw [if_neg (by simp [hw])]
    rw [if_neg (by omega)]
    have h2 := ih (i + 1) { st with processedExists := true }
    refine ⟨?_, ?_⟩
    · simp only [h2.1]
      congr 1
      omega
    · simp only [h2.2, List.range'_succ]

/-- If the loop exited through an extraction failure at tick `k`, then it
attempted exactly the ticks `i, …, k`, each once, and none after `k`. -/
theorem runLoop_exit_extract (env : Env) (s d : Nat) (p : Bool) :
    ∀ fuel i st k, (runLoop env s d p fuel i st).exit = .extractFailed k →
      i ≤ k ∧ (runLoop env s d p fuel i st).attempts = List.range' i (k + 1 - i) := by
  intro fuel
  induction fuel with
  | zero => intro i st k h; simp [runLoop] at h
  | succ f ih =>
    intro i st k h
    simp only [runLoop] at h ⊢
    by_cases h1 : (env.extract i).returncode ≠ 0
    · rw [if_pos h1] at h ⊢
      simp only [ExitKind.extractFailed.injEq] at h
      subst h
      simp
    · rw [if_neg h1] at h ⊢
      by_cases h2 : (env.whisper i).returncode ≠ 0
      · rw [if_pos h2] at h
        simp at h
      · rw [if_neg h2] at h ⊢
        by_cases h3 : 0 < d ∧ d ≤ (i + 1) * s
        · rw [if_pos h3] at h
          simp at h
        · rw [if_neg h3] at h ⊢
          simp only at h ⊢
          obtain ⟨hik, hatt⟩ := ih (i + 1) { st with processedExists := true } k h
          refine ⟨by omega, ?_⟩
          rw [hatt]
          have hk : k + 1 - i = (k + 1 - (i + 1)) + 1 := by omega
          rw [hk, List.range'_succ]

/-- If the loop exited through a transcription-invocation failure at tick
`k`, then it attempted exactly the ticks `i, …, k`, each once, and none
after `k`. -/
theorem runLoop_exit_whisper (env : Env) (s d : Nat) (p : Bool) :
    ∀ fuel i st k, (runLoop env s d p fuel i st).exit = .whisperFailed k →
      i ≤ k ∧ (runLoop env s d p fuel i st).attempts = List.range' i (k + 1 - i) := by
  intro fuel
  induction fuel with
  | zero => intro i st k h; simp [runLoop] at h
  | succ f ih =>
    intro i st k h
    simp only [runLoop] at h ⊢
    by_cases h1 : (env.extract i).returncode ≠ 0
    · rw [if_pos h1] at h
      simp at h
    · rw [if_neg h1] at h ⊢
      by_cases h2 : (env.whisper i).returncode ≠ 0
      · rw [if_pos h2] at h ⊢
        simp only [ExitKind.whisperFailed.injEq] at h
        subst h
        simp
      · rw [if_neg h2] at h ⊢
        by_cases h3 : 0 < d ∧ d ≤ (i + 1) * s
        · rw [if_pos h3] at h
          simp at h
        · rw [if_neg h3] at h ⊢
          simp only at h ⊢
          obtain ⟨hik, hatt⟩ := ih (i + 1) { st with processedExists := true } k h
          refine ⟨by omega, ?_⟩
          rw [hatt]
          have hk : k + 1 - i = (k + 1 - (i + 1)) + 1 := by omega
          rw [hk, List.range'_succ]

/-- If the loop exited through the duration check, it emitted exactly one
transcript per attempted tick, with the sequence indices `i, …,
nextIndex - 1` in strictly increasing order. -/
theorem runLoop_exit_maxDur (env : Env) (s d : Nat) (p : Bool) :
    ∀ fuel i st, (runLoop env s d p fuel i st).exit = .maxDurationReached →
      i < (runLoop env s d p fuel i st).nextIndex ∧
      (runLoop env s d p fuel i st).attempts
        = List.range' i ((runLoop env s d p fuel i st).nextIndex - i) ∧
      transcriptIndices (runLoop env s d p fuel i st).outs
        = List.range' i ((runLoop env s d p fuel i st).nextIndex - i) := by
  intro fuel
  induction fuel with
  | zero => intro i st h; simp [runLoop] at h
  | succ f ih =>
    intro i st h
    simp only [runLoop] at h ⊢
    by_cases h1 : (env.extract i).returncode ≠ 0
    · rw [if_pos h1] at h
      simp at h
    · rw [if_neg h1] at h ⊢
      by_cases h2 : (env.whisper i).returncode ≠ 0
      · rw [if_pos h2] at h
        simp at h
      · rw [if_neg h2] at h ⊢
        by_cases h3 : 0 < d ∧ d ≤ (i + 1) * s
        · rw [if_pos h3] at h ⊢
          simp [transcriptIndices]
        · rw [if_neg h3] at h ⊢
          simp only at h ⊢
          obtain ⟨hlt, hatt, htr⟩ := ih (i + 1) { st with processedExists := true } h
          refine ⟨by omega, ?_, ?_⟩
          · rw [hatt]
            have hk : (runLoop env s d p f (i + 1)
                { st with processedExists := true }).nextIndex - i
                = ((runLoop env s d p f (i + 1)
                    { st with processedExists := true }).nextIndex - (i + 1)) + 1 := by omega
            rw [hk, List.range'_succ]
          · simp only [transcriptIndices, List.filterMap_cons] at htr ⊢
            rw [htr]
            have hk : (runLoop env s d p f (i + 1)
                { st with processedExists := true }).nextIndex - i
                = ((runLoop env s d p f (i + 1)
                    { st with processedExists := true }).nextIndex - (i + 1)) + 1 := by omega
            rw [hk, List.range'_succ]

/-- Every transcript line the loop emits for sequence index `j` carries
exactly the text computed by `transcriptText` from the stdout of the
`whisper-cli` invocation at tick `j`. -/
theorem runLoop_transcript_src (env : Env) (s d : Nat) (p : Bool) :
    ∀ fuel i st j t, Out.transcript j t ∈ (runLoop env s d p fuel i st).outs →
      t = transcriptText p (env.whisper j).stdout := by
  intro fuel
  induction fuel with
  | zero => intro i st j t h; simp [runLoop] at h
  | succ f ih =>
    intro i st j t h
    simp only [runLoop] at h
    by_cases h1 : (env.extract i).returncode ≠ 0
    · rw [if_pos h1] at h
      simp at h
    · rw [if_neg h1] at h
      by_cases h2 : (env.whisper i).returncode ≠ 0
      · rw [if_pos h2] at h
        simp at h
      · rw [if_neg h2] at h
        by_cases h3 : 0 < d ∧ d ≤ (i + 1) * s
        · rw [if_pos h3] at h
          simp only [List.mem_cons, List.mem_singleton] at h
          rcases h with h | h
          · obtain ⟨hj, ht⟩ := Out.transcript.inj h
            rw [ht, hj]
          · exact absurd h (by simp)
        · rw [if_neg h3] at h
          simp only [List.mem_cons] at h
          rcases h with h | h
          · obtain ⟨hj, ht⟩ := Out.transcript.inj h
            rw [ht, hj]
          · exact ih (i + 1) { st with processedExists := true } j t h

/-- Every `Error during transcription:` line the loop emits for tick `j`
comes from a `whisper-cli` invocation with nonzero exit status, and its
payload is exactly the captured stderr of that invocation; in particular the
stderr of an invocation that exits 0 is never printed. -/
theorem runLoop_whisperError_src (env : Env) (s d : Nat) (p : Bool) :
    ∀ fuel i st j e, Out.whisperError j e ∈ (runLoop env s d p fuel i st).outs →
      (env.whisper j).returncode ≠ 0 ∧ e = (env.whisper j).stderr := by
  intro fuel
  induction fuel with
  | zero => intro i st j e h; simp [runLoop] at h
  | succ f ih =>
    intro i st j e h
    simp only [runLoop] at h
    by_cases h1 : (env.extract i).returncode ≠ 0
    · rw [if_pos h1] at h
      simp at h
    · rw [if_neg h1] at h
      by_cases h2 : (env.whisper i).returncode ≠ 0
      · rw [if_pos h2] at h
        simp only [List.mem_singleton] at h
        obtain ⟨hj, he⟩ := Out.whisperError.inj h
        subst hj
        exact ⟨h2, he⟩
      · rw [if_neg h2] at h
        by_cases h3 : 0 < d ∧ d ≤ (i + 1) * s
        · rw [if_pos h3] at h
          simp at h
        · rw [if_neg h3] at h
          simp only [List.mem_cons] at h
          rcases h with h | h
          · simp at h
          · exact ih (i + 1) { st with processedExists := true } j e h

/-- C1: for every step size `s > 0` and every bound `d > 0`, a
failure-free orchestration loop performs exactly `⌈d/s⌉` ticks (indices
`0` through `⌈d/s⌉ - 1`), each passing the window `(i*s, s)` — duration
`s`, strictly increasing contiguous non-overlapping starts — to the
extractor, and then stops; when `d = 0` the loop never stops on its own.
In particular with step 15 and bound 60 the session runs exactly 4 ticks
(indices 0–3) before entering cleanup. -/
theorem c1_segment_clock (env : Env) (url model lang : String) (p : Bool)
    (s d fuel : Nat) (hs : 0 < s) (henv : allSuccess env) :
    (0 < d → ceilTicks s d ≤ fuel →
      (session env url s model lang d p fuel).attempts = List.range (ceilTicks s d) ∧
      (session env url s model lang d p fuel).windows
        = (List.range (ceilTicks s d)).map (fun j => (j * s, s)) ∧
      (session env url s model lang d p fuel).exit = .maxDurationReached) ∧
    (d = 0 →
      (session env url s model lang d p fuel).exit = .stillRunning fuel ∧
      (session env url s model lang d p fuel).attempts = List.range fuel) := by
  constructor
  · intro hd hfuel
    have hn : 0 < ceilTicks s d := (ticks_lt_iff hs hd 0).1 (by simpa using hd)
    simp only [session]
    rw [runLoop_success env s d p hs hd henv fuel 0 _ hn (by omega)]
    simp [List.range_eq_range']
  · intro hd0
    subst hd0
    have h := runLoop_unbounded env s p henv fuel 0 ⟨true, false⟩
    simp only [session]
    constructor
    · simpa using h.1
    · simpa [List.range_eq_range'] using h.2

/-- C1 witness: with step 15 and bound 60 the failure-free session
performs exactly the ticks 0–3 with windows starting at 0, 15, 30, 45,
then exits through the duration check. -/
theorem c1_segment_clock_witness :
    ((0 : Nat) < 15 ∧ allSuccess constEnv ∧ (0 : Nat) < 60 ∧ ceilTicks 15 60 ≤ 4) ∧
    ((session constEnv "rtmp://x" 15 "small" "ru" 60 true 4).attempts
       = List.range (ceilTicks 15 60) ∧
     (session constEnv "rtmp://x" 15 "small" "ru" 60 true 4).windows
       = (List.range (ceilTicks 15 60)).map (fun j => (j * 15, 15)) ∧
     (session constEnv "rtmp://x" 15 "small" "ru" 60 true 4).exit = .maxDurationReached) := by
  refine ⟨⟨by decide, fun j => ⟨rfl, rfl⟩, by decide, by decide⟩, ?_⟩
  exact (c1_segment_clock constEnv "rtmp://x" "small" "ru" true 15 60 4 (by decide)
    (fun j => ⟨rfl, rfl⟩)).1 (by decide) (by decide)

/-- C2: on every exit path of a started session — normal completion
through the duration bound, mid-loop extraction failure, mid-loop
invocation failure — the capture process is sent exactly one termination
signal and both scratch files (live capture sink and processed-segment
file) end up deleted, so no scratch artifact exists after the session
ends. -/
theorem c2_cleanup_every_exit (env : Env) (url model lang : String) (p : Bool)
    (s d fuel : Nat)
    (h : stillGoing (session env url s model lang d p fuel).exit = false) :
    (session env url s model lang d p fuel).terminations = 1 ∧
    (session env url s model lang d p fuel).finalState.liveExists = false ∧
    (session env url s model lang d p fuel).finalState.processedExists = false := by
  simp only [session] at h ⊢
  simp [h]

/-- C2 witness: the normal-completion run with step 15 and bound 60 has
exited, terminated the capture process once, and left no scratch file. -/
theorem c2_cleanup_every_exit_witness :
    stillGoing (session constEnv "rtmp://x" 15 "small" "ru" 60 true 10).exit = false ∧
    ((session constEnv "rtmp://x" 15 "small" "ru" 60 true 10).terminations = 1 ∧
     (session constEnv "rtmp://x" 15 "small" "ru" 60 true 10).finalState.liveExists = false ∧
     (session constEnv "rtmp://x" 15 "small" "ru" 60 true 10).finalState.processedExists = false) := by
  refine ⟨by decide, ?_⟩
  exact c2_cleanup_every_exit constEnv "rtmp://x" "small" "ru" true 15 60 10 (by decide)

/-- C3: in any run that completes normally (exit through the duration
bound), transcription records are emitted with sequence indices
`0, 1, …, nextIndex - 1` in strictly increasing order — exactly one per
tick, no index skipped, none emitted twice. -/
theorem c3_transcripts_in_order (env : Env) (url model lang : String) (p : Bool)
    (s d fuel : Nat)
    (h : (session env url s model lang d p fuel).exit = .maxDurationReached) :
    transcriptIndices (session env url s model lang d p fuel).outs
      = List.range (session env url s model lang d p fuel).nextIndex ∧
    (session env url s model lang d p fuel).attempts
      = List.range (session env url s model lang d p fuel).nextIndex := by
  simp only [session] at h ⊢
  obtain ⟨hlt, hatt, htr⟩ := runLoop_exit_maxDur env s d p fuel 0 ⟨true, false⟩ h
  constructor
  · rw [List.range_eq_range']
    simp only [transcriptIndices, List.filterMap_append] at htr ⊢
    simpa [startBanners] using htr
  · rw [List.range_eq_range']
    simpa using hatt

/-- C3 witness: the normal-completion run with step 15 and bound 60
emits the transcript indices `[0, 1, 2, 3]` in order. -/
theorem c3_transcripts_in_order_witness :
    (session constEnv "u" 15 "m" "l" 60 true 10).exit = .maxDurationReached ∧
    (transcriptIndices (session constEnv "u" 15 "m" "l" 60 true 10).outs
       = List.range (session constEnv "u" 15 "m" "l" 60 true 10).nextIndex ∧
     (session constEnv "u" 15 "m" "l" 60 true 10).attempts
       = List.range (session constEnv "u" 15 "m" "l" 60 true 10).nextIndex) := by
  refine ⟨by decide, ?_⟩
  exact c3_transcripts_in_order constEnv "u" "m" "l" true 15 60 10 (by decide)

/-- C4: if segment extraction fails (nonzero extractor status) or the
transcription invocation fails (nonzero engine status) at segment `k`,
the session enters cleanup (one termination signal) having attempted
exactly segments `0, …, k` — segment `k + 1` is never attempted and the
failing segment is not retried. -/
theorem c4_failure_stops_loop (env : Env) (url model lang : String) (p : Bool)
    (s d fuel k : Nat)
    (h : (session env url s model lang d p fuel).exit = .extractFailed k ∨
         (session env url s model lang d p fuel).exit = .whisperFailed k) :
    (session env url s model lang d p fuel).attempts = List.range (k + 1) ∧
    (session env url s model lang d p fuel).terminations = 1 := by
  simp only [session] at h ⊢
  rcases h with h | h
  · obtain ⟨hik, hatt⟩ := runLoop_exit_extract env s d p fuel 0 ⟨true, false⟩ k h
    constructor
    · rw [List.range_eq_range']
      simpa using hatt
    · simp [h, stillGoing]
  · obtain ⟨hik, hatt⟩ := runLoop_exit_whisper env s d p fuel 0 ⟨true, false⟩ k h
    constructor
    · rw [List.range_eq_range']
      simpa using hatt
    · simp [h, stillGoing]

/-- C4 witness: with extraction failing at tick 2, the session attempts
exactly ticks 0–2 and enters cleanup with one termination signal. -/
theorem c4_failure_stops_loop_witness :
    ((session failAt2Env "u" 15 "m" "l" 60 true 10).exit = .extractFailed 2 ∨
     (session failAt2Env "u" 15 "m" "l" 60 true 10).exit = .whisperFailed 2) ∧
    ((session failAt2Env "u" 15 "m" "l" 60 true 10).attempts = List.range 3 ∧
     (session failAt2Env "u" 15 "m" "l" 60 true 10).terminations = 1) := by
  refine ⟨Or.inl (by decide), ?_⟩
  exact c4_failure_stops_loop failAt2Env "u" "m" "l" true 15 60 10 2 (Or.inl (by decide))

/-- C5 counterexample: in the canonical successful session (step 15,
bound 60, every call succeeding) the processed-segment artifact produced
at tick 0 still exists at the start of tick 1 — between ticks the
SegmentArtifact is not deleted; the loop body never removes it. -/
theorem c5_between_ticks_artifact_cx :
    (session constEnv "rtmp://x" 15 "small" "ru" 60 true 10).exit = .maxDurationReached ∧
    (session constEnv "rtmp://x" 15 "small" "ru" 60 true 10).topStates.get? 1
      = some { liveExists := true, processedExists := true } := by decide

/-- C5 amended: the single processed-segment artifact is overwritten in
place at each tick and deleted only at session end — in a failure-free
bounded session it exists at the top of every tick after the first
(at most one artifact ever exists, there being a single fixed path), and
no scratch artifact exists once the session has ended. -/
theorem c5_artifact_lifecycle (env : Env) (url model lang : String) (p : Bool)
    (s d fuel : Nat) (hs : 0 < s) (hd : 0 < d) (henv : allSuccess env)
    (hfuel : ceilTicks s d ≤ fuel) :
    (session env url s model lang d p fuel).topStates
      = { liveExists := true, processedExists := false }
        :: List.replicate (ceilTicks s d - 1)
             { liveExists := true, processedExists := true } ∧
    (session env url s model lang d p fuel).finalState.processedExists = false := by
  have hn : 0 < ceilTicks s d := (ticks_lt_iff hs hd 0).1 (by simpa using hd)
  simp only [session]
  rw [runLoop_success env s d p hs hd henv fuel 0 _ hn (by omega)]
  simp [stillGoing]

/-- C5 amended witness: the artifact is live at the top of ticks 1–3 of
the canonical run and gone after the session. -/
theorem c5_artifact_lifecycle_witness :
    ((0 : Nat) < 15 ∧ (0 : Nat) < 60 ∧ allSuccess constEnv ∧ ceilTicks 15 60 ≤ 10) ∧
    ((session constEnv "u" 15 "m" "l" 60 true 10).topStates
       = { liveExists := true, processedExists := false }
         :: List.replicate (ceilTicks 15 60 - 1)
              { liveExists := true, processedExists := true } ∧
     (session constEnv "u" 15 "m" "l" 60 true 10).finalState.processedExists = false) := by
  refine ⟨⟨by decide, by decide, fun j => ⟨rfl, rfl⟩, by decide⟩, ?_⟩
  exact c5_artifact_lifecycle constEnv "u" "m" "l" true 15 60 10 (by decide) (by decide)
    (fun j => ⟨rfl, rfl⟩) (by decide)

/-- C6 counterexample: with step 15 and bound 20, window 1 is issued
(the run attempts ticks 0 and 1) although `(1 + 1) * 15 = 30 > 20`,
refuting "window i is issued only if `(i+1) * step ≤ max_duration`". -/
theorem c6_window_predicate_cx :
    (session constEnv "u" 15 "m" "l" 20 true 10).attempts = [0, 1] ∧
    20 < (1 + 1) * 15 := by decide

/-- C6 amended: given `max_duration > 0`, a failure-free run issues
window `i` iff `i * step < max_duration` — the loop stops after
completing tick `i` as soon as `(i + 1) * step ≥ max_duration`; given
`max_duration = 0` it never stops on its own. -/
theorem c6_window_predicate (env : Env) (url model lang : String) (p : Bool)
    (s d fuel : Nat) (hs : 0 < s) (henv : allSuccess env) :
    (0 < d → ceilTicks s d ≤ fuel →
      ∀ i, i ∈ (session env url s model lang d p fuel).attempts ↔ i * s < d) ∧
    (d = 0 → (session env url s model lang d p fuel).exit = .stillRunning fuel) := by
  constructor
  · intro hd hfuel i
    have hn : 0 < ceilTicks s d := (ticks_lt_iff hs hd 0).1 (by simpa using hd)
    simp only [session]
    rw [runLoop_success env s d p hs hd henv fuel 0 _ hn (by omega)]
    simp [List.mem_range'_1, ticks_lt_iff hs hd i]
  · intro hd0
    subst hd0
    simp only [session]
    have h := runLoop_unbounded env s p henv fuel 0 ⟨true, false⟩
    simpa using h.1

/-- C6 amended witness: with step 15 and bound 20, window 1 is issued
because `1 * 15 < 20`. -/
theorem c6_window_predicate_witness :
    ((0 : Nat) < 15 ∧ allSuccess constEnv ∧ (0 : Nat) < 20 ∧ ceilTicks 15 20 ≤ 10) ∧
    (1 ∈ (session constEnv "u" 15 "m" "l" 20 true 10).attempts ↔ 1 * 15 < 20) := by
  refine ⟨⟨by decide, fun j => ⟨rfl, rfl⟩, by decide, by decide⟩, ?_⟩
  exact (c6_window_predicate constEnv "u" "m" "l" true 15 20 10 (by decide)
    (fun j => ⟨rfl, rfl⟩)).1 (by decide) (by decide) 1

/-- C7 counterexample: in plain-text mode, when the engine invocation
exits 0 with empty stdout the session emits an ordinary transcription
record whose text is the empty string — not a parse_error (no parse_error
status exists in the plain-text path). -/
theorem c7_empty_output_cx :
    (session emptyOutEnv "u" 15 "m" "l" 15 false 3).outs
      = startBanners "u" 15 "m" "l" 15
        ++ [Out.transcript 0 "", Out.maxDurationNote] := by decide

/-- C7 amended: in plain-text mode the emitted text is
`stdout.strip().split("\n")[-1]` — the last line of the
whitespace-stripped engine output, so the multi-line example from the spec
yields "hello world" — and empty engine output yields an emitted record
with empty text rather than a parse_error. -/
theorem c7_plain_text_last_line (env : Env) (url model lang : String)
    (s d fuel : Nat) :
    (∀ j t, Out.transcript j t ∈ (session env url s model lang d false fuel).outs →
        t = lastFieldStr (pyStripStr (env.whisper j).stdout)) ∧
    lastFieldStr (pyStripStr "loading model...\nprocessing...\nhello world")
      = "hello world" ∧
    lastFieldStr (pyStripStr "") = "" := by
  refine ⟨?_, by decide, by decide⟩
  intro j t h
  simp only [session, List.mem_append] at h
  rcases h with h | h
  · simp [startBanners] at h
  · have := runLoop_transcript_src env s d false fuel 0 ⟨true, false⟩ j t h
    simpa [transcriptText] using this

/-- C7 amended witness: the canonical plain-text run emits exactly the
last line of the engine stdout. -/
theorem c7_plain_text_last_line_witness :
    Out.transcript 0 "hello world" ∈ (session constEnv "u" 15 "m" "l" 15 false 3).outs ∧
    "hello world" = lastFieldStr (pyStripStr (constEnv.whisper 0).stdout) := by
  refine ⟨by decide, ?_⟩
  exact (c7_plain_text_last_line constEnv "u" "m" "l" 15 15 3).1 0 "hello world" (by decide)

/-- C8 counterexample: the line " " is not valid JSON, yet `read_stream`
silently skips it (lines blank after stripping are ignored) and produces
no parse_error — refuting "for every output line that is not valid JSON,
the parser produces a parse_error result". -/
theorem c8_blank_line_cx :
    ¬ (∀ line : String, jsonValidStr (pyStripStr line) = false →
        readLine line = some (Emission.invalidJson (pyStripStr line))) := by
  intro h
  have h1 := h " " (by decide)
  have h2 : readLine " " = none := by decide
  rw [h2] at h1
  exact Option.noConfusion h1

/-- C8 amended: every output line that is non-blank after stripping and
not valid JSON yields a parse-error report preserving the raw offending
(stripped) text; blank lines are skipped silently; stream processing
always continues past a parse failure (it is per-line, never aborting);
and the valid example from the spec parses as JSON output. -/
theorem c8_invalid_json_reported :
    (∀ line : String, pyStripStr line ≠ "" → jsonValidStr (pyStripStr line) = false →
        readLine line = some (Emission.invalidJson (pyStripStr line))) ∧
    (∀ xs ys : List String, readStream (xs ++ ys) = readStream xs ++ readStream ys) ∧
    readLine "\x7b\"text\": \"hola\"\x7d"
      = some (.jsonOut "\x7b\"text\": \"hola\"\x7d") := by
    refine ⟨?_, ?_, by decide⟩
    · intro line h1 h2
      simp [readLine, h1, h2]
    · intro xs ys
      simp [readStream]

/-- C8 amended witness: the malformed example line from the spec produces a
parse-error report carrying its stripped raw text. -/
theorem c8_invalid_json_reported_witness :
    (pyStripStr "\x7b\"text\": " ≠ "" ∧
     jsonValidStr (pyStripStr "\x7b\"text\": ") = false) ∧
    readLine "\x7b\"text\": "
      = some (Emission.invalidJson (pyStripStr "\x7b\"text\": ")) := by
  refine ⟨⟨by decide, by decide⟩, ?_⟩
  exact c8_invalid_json_reported.1 "\x7b\"text\": " (by decide) (by decide)

/-- C9 counterexample: the buffering banner of every run and the
extraction error report of a failing run are emitted on the primary
stdout stream — diagnostics and error reports are not routed to a
separate stream. -/
theorem c9_diagnostics_on_stdout_cx :
    Out.banner "[+] Buffering audio. Please wait..."
      ∈ (session constEnv "u" 15 "m" "l" 60 true 4).outs ∧
    Out.extractError 0 "boom" ∈ (session failExtractEnv "u" 15 "m" "l" 60 true 4).outs ∧
    outChannel (Out.banner "[+] Buffering audio. Please wait...") = Channel.stdout ∧
    outChannel (Out.extractError 0 "boom") = Channel.stdout := by decide

/-- C9 amended: every line a session prints — banners, transcription
results, error reports, the stop notice — goes to the single stdout
stream; error reports are distinguished only textually, by their
`Error extracting segment: ` / `Error during transcription: ` message
text, not by a separate stream. -/
theorem c9_single_output_stream (env : Env) (url model lang : String) (p : Bool)
    (s d fuel : Nat) :
    (∀ o ∈ (session env url s model lang d p fuel).outs, outChannel o = Channel.stdout) ∧
    (∀ i e, render (Out.extractError i e) = "Error extracting segment: " ++ e) ∧
    (∀ i e, render (Out.whisperError i e) = "Error during transcription: " ++ e) :=
  ⟨fun _ _ => rfl, fun _ _ => rfl, fun _ _ => rfl⟩

/-- C9 amended witness: the buffering banner of the canonical run is on
stdout. -/
theorem c9_single_output_stream_witness :
    Out.banner "[+] Buffering audio. Please wait..."
      ∈ (session constEnv "u" 15 "m" "l" 60 true 4).outs ∧
    outChannel (Out.banner "[+] Buffering audio. Please wait...") = Channel.stdout := by
  refine ⟨by decide, ?_⟩
  exact (c9_single_output_stream constEnv "u" "m" "l" true 15 60 4).1 _ (by decide)

/-- C10: a `whisper-cli` stderr payload is printed only when the
invocation exited with nonzero status, and then it is exactly the
captured stderr of that invocation; the captured stderr of an invocation
exiting 0 is never surfaced anywhere in the session output. -/
theorem c10_stderr_only_on_failure (env : Env) (url model lang : String) (p : Bool)
    (s d fuel : Nat) :
    ∀ j e, Out.whisperError j e ∈ (session env url s model lang d p fuel).outs →
      (env.whisper j).returncode ≠ 0 ∧ e = (env.whisper j).stderr := by
  intro j e h
  simp only [session, List.mem_append] at h
  rcases h with h | h
  · simp [startBanners] at h
  · exact runLoop_whisperError_src env s d p fuel 0 ⟨true, false⟩ j e h

/-- C10 witness: the failing-invocation run surfaces exactly the captured engine
captured stderr, and its exit status was nonzero. -/
theorem c10_stderr_only_on_failure_witness :
    Out.whisperError 0 "wboom" ∈ (session failWhisperEnv "u" 15 "m" "l" 60 true 4).outs ∧
    ((failWhisperEnv.whisper 0).returncode ≠ 0 ∧
     "wboom" = (failWhisperEnv.whisper 0).stderr) := by
  refine ⟨by decide, ?_⟩
  exact c10_stderr_only_on_failure failWhisperEnv "u" "m" "l" true 15 60 4 0 "wboom" (by decide)

end WhisperStreaming
